import Mathlib

/-!
Verification of `sync_multi.py` (IGCrystal/myLittleTools): a shallow
embedding of the multi-task directory synchronizer's pure logic —
glob exclusion, the per-pair copy/delete plan, pair derivation and
validation, retry, the pass-lock reentrancy state machine, the
supervisor loop, log formatting and the logger registry — together
with theorems checking the specification's statements against it.
-/

set_option autoImplicit false

namespace SyncMulti

/-! ## Glob matching (`fnmatch.fnmatch` / `pathlib` name globbing)

The patterns appearing in the spec and config examples use only the
wildcards `*` and `?` plus literal characters, which is the fragment
modelled here (character classes `[...]` do not occur). -/

/-- Shell-style glob match of pattern `p` against string `s`:
`*` matches any run of characters (some suffix of `s` matches the rest
of the pattern), `?` any single character, anything else matches
itself. -/
def globMatch (p s : List Char) : Bool :=
  match p with
  | [] => s.isEmpty
  | '*' :: ps => s.tails.any fun t => globMatch ps t
  | '?' :: ps =>
    match s with
    | [] => false
    | _ :: cs => globMatch ps cs
  | c :: ps =>
    match s with
    | [] => false
    | d :: cs => (c == d) && globMatch ps cs

/-- `fnmatch.fnmatch(name, pat)` on POSIX (no case folding). -/
def fnmatch (name pat : String) : Bool :=
  globMatch pat.toList name.toList

/-- `SyncTask.should_exclude`: true iff any exclude pattern matches the
POSIX-form relative path. -/
def should_exclude (exclude : List String) (rel : String) : Bool :=
  exclude.any fun pat => fnmatch rel pat

/-! ## Filesystem snapshot and the sync plan (`SyncTask.sync`, lines 215–246)

A pair's source side is the list of regular files `rglob("*")` yields
under `s_base`, as (relative POSIX path, file record); the target side
likewise.  `compute_hash` is `hashlib` streaming a digest over the
bytes, so it is modelled as an arbitrary function of the content. -/

/-- A regular file's stat+content as the sync pass reads it. -/
structure FileRec where
  mtime : Int
  content : List Nat
  deriving DecidableEq, Repr

/-- First file record stored under a relative path, as `dst.exists()` +
`dst.stat()` + `open` observe it. -/
def lookupFS (fs : List (String × FileRec)) (rel : String) : Option FileRec :=
  match fs with
  | [] => none
  | (r, f) :: rest => if r = rel then some f else lookupFS rest rel

/-- Lines 216–233 of `sync_multi.py`: the copy plan for one pair.  A
source file `(rel, f)` is marked when it is not excluded and either no
target file exists at `rel`, or the source mtime is strictly newer and
the digests differ. -/
def copyPlan (hash : List Nat → List Nat) (exclude : List String)
    (srcFiles dstFiles : List (String × FileRec)) : List (String × FileRec) :=
  srcFiles.filter fun rf =>
    if should_exclude exclude rf.1 then false
    else
      match lookupFS dstFiles rf.1 with
      | none => true
      | some d => decide (d.mtime < rf.2.mtime) && !(hash rf.2.content == hash d.content)

/-- Lines 234–246 of `sync_multi.py`: the delete plan for one pair.
`tgtEntries` are the relative POSIX paths `rglob("*")` yields under
`t_base` (files and directories); `srcPaths` the relative paths that
exist under `s_base`. -/
def deletePlan (exclude : List String) (tgtEntries srcPaths : List String) : List String :=
  tgtEntries.filter fun rel =>
    if exclude.any (fun pat => fnmatch rel pat) then false
    else !(srcPaths.contains rel)

/-! ## Pair derivation and load-time validation
(`SyncTask._validate` lines 112–124, `SyncTask._pairs` lines 126–131) -/

/-- `SyncTask._validate`: error when sources or targets is empty, when a
source is not a directory, or when a target cannot be probed writable;
`srcIsDir` and `tgtWritable` stand for the filesystem checks. -/
def validate (srcIsDir tgtWritable : String → Bool) (sources targets : List String) :
    Except String Unit :=
  if sources.isEmpty || targets.isEmpty then .error "need at least one source and one target"
  else
    match sources.find? (fun s => !srcIsDir s) with
    | some s => .error ("source does not exist: " ++ s)
    | none =>
      match targets.find? (fun t => !tgtWritable t) with
      | some t => .error ("target not writable: " ++ t)
      | none => .ok ()

/-- `SyncTask._pairs`: equal lengths zip; a single source fans out to
every target; otherwise every source fans in to the first target. -/
def pairsOf (sources targets : List String) : List (String × String) :=
  if sources.length = targets.length then sources.zip targets
  else if sources.length = 1 then targets.map (fun t => (sources.headD "", t))
  else sources.map (fun s => (s, targets.headD ""))

/-! ## The retry decorator (`retry`, lines 66–78)

The wrapped callable is modelled as the sequence of outcomes of its
successive invocations: `f i` is what the `i`-th invocation (0-based)
returns or raises.  `retryRun` mirrors the `for i in range(times)` loop
and also counts how many invocations were made. -/

/-- One iteration state of the `retry` loop from index `i` with
`fuel = times - i` iterations left.  Returns `none` when the loop falls
off the end without a single iteration (`times = 0`, Python returns
`None`), otherwise the propagated result, paired with the number of
invocations of the wrapped function. -/
def retryGo {E A : Type} (f : Nat → Except E A) (times : Nat) :
    Nat → Nat → Option (Except E A) × Nat
  | _, 0 => (none, 0)
  | i, fuel + 1 =>
    match f i with
    | .ok a => (some (.ok a), 1)
    | .error e =>
      if i < times - 1 then
        let (r, n) := retryGo f times (i + 1) fuel
        (r, n + 1)
      else (some (.error e), 1)

/-- `retry(times, delay)(fn)(...)`: run the loop from `i = 0`. -/
def retryRun {E A : Type} (f : Nat → Except E A) (times : Nat) :
    Option (Except E A) × Nat :=
  retryGo f times 0 times

/-! ## Temp-file naming, `_atomic_copy` and `cleanup_tmp_files`
(lines 137–166)

`_atomic_copy` creates its temp file with
`tempfile.NamedTemporaryFile(dir=dst.parent, delete=False)`: the name is
the default prefix `"tmp"` followed by random characters drawn from
`tempfile`'s alphabet of lowercase letters, digits and underscore.
`cleanup_tmp_files` unlinks every entry matching `t_base.rglob("*.sync_tmp*")`,
i.e. every entry whose *name* matches the glob `*.sync_tmp*`.
Paths are lists of components; `dst.parent` is `dropLast`. -/

/-- The character set `tempfile._RandomNameSequence` draws from. -/
def tempfileAlphabet : List Char := "abcdefghijklmnopqrstuvwxyz0123456789_".toList

/-- The name `tempfile.NamedTemporaryFile` gives the temp file: default
prefix `"tmp"`, no suffix, then the random part `rand`. -/
def tempFileName (rand : String) : String := "tmp" ++ rand

/-- Where `_atomic_copy` puts its temp file: in `dst.parent`, under the
`NamedTemporaryFile` name. -/
def atomicCopyTmpPath (dst : List String) (rand : String) : List String :=
  dst.dropLast ++ [tempFileName rand]

/-- `cleanup_tmp_files` removes an entry iff its name matches the glob
`*.sync_tmp*` (the `rglob` pattern), per path component of the name. -/
def cleanupRemoves (name : String) : Bool :=
  globMatch "*.sync_tmp*".toList name.toList

/-! ## Supervisor (`supervise`, lines 355–372)

Each turn of the `while True` loop spawns a child, joins it, and then —
with no test of the exit code — logs the exit, sleeps `RESTART_DELAY`
seconds and loops around to spawn again. -/

/-- `RESTART_DELAY = 5` (line 41). -/
def RESTART_DELAY : Nat := 5

/-- What the supervisor does after the child with exit code `code`
terminates. -/
structure SuperviseStep where
  loggedExit : Bool
  sleptSeconds : Nat
  respawned : Bool
  deriving DecidableEq, Repr

/-- Lines 365–369: after `p.join()` the loop body unconditionally logs
the exit code, sleeps `RESTART_DELAY`, and reaches `p.start()` again. -/
def superviseStep (code : Int) : SuperviseStep :=
  { loggedExit := true
    sleptSeconds := RESTART_DELAY
    respawned := (fun (_ : Int) => true) code }

/-! ## Log formatting and the logger registry
(`CatFormatter.format` lines 44–47, `setup_logger` lines 49–64) -/

/-- The cat-tail strings (line 26). -/
def CAT_TAILS : List String := ["喵～", "喵♡～", "呜喵～", "噜～"]

/-- `random.choice(CAT_TAILS)`, with the random draw made explicit as an
index. -/
def random_tail (i : Nat) : String := CAT_TAILS.getD (i % 4) ""

/-- A run of `n` spaces. -/
def spaces (n : Nat) : String := String.mk (List.replicate n ' ')

/-- Python's format spec `^w` (center in a field of width `w`, extra
fill on the right). -/
def centerPad (w : Nat) (s : String) : String :=
  if w ≤ s.length then s
  else spaces ((w - s.length) / 2) ++ s ++ spaces (w - s.length - (w - s.length) / 2)

/-- `CatFormatter.format` (lines 45–47): timestamp, level name centered
to width 5, message, and an appended random cat tail, separated as in
the f-string. -/
def catFormat (ts levelname msg tail : String) : String :=
  ts ++ " | " ++ centerPad 5 levelname ++ " | " ++ msg ++ " " ++ tail

/-- The record format the specification states: timestamp, level,
message and nothing else.  Stated from the spec's words for comparison
with `catFormat`. -/
def specLogFormat (ts levelname msg : String) : String :=
  ts ++ " | " ++ levelname ++ " | " ++ msg

/-- A handler attached by `setup_logger`: the rotating file handler with
its constructor arguments, or the stream handler. -/
inductive LogHandler where
  | rotatingFile (logfile : String) (maxBytes : Nat) (backupCount : Nat) (encoding : String)
  | stream
  deriving DecidableEq, Repr

/-- The mutable state of one `logging.Logger`. -/
structure LoggerState where
  level : Nat
  propagate : Bool
  handlers : List LogHandler
  deriving DecidableEq, Repr

/-- `logging.INFO`. -/
def INFO_LEVEL : Nat := 20

/-- `logging`'s process-wide registry of named loggers. -/
abbrev Registry := List (String × LoggerState)

/-- First logger registered under `name`. -/
def regFind (reg : Registry) (name : String) : Option LoggerState :=
  match reg with
  | [] => none
  | (n, l) :: rest => if n = name then some l else regFind rest name

/-- Overwrite the first registered logger called `name`. -/
def regSet (reg : Registry) (name : String) (v : LoggerState) : Registry :=
  match reg with
  | [] => []
  | (n, l) :: rest => if n = name then (n, v) :: rest else (n, l) :: regSet rest name v

/-- `logging.getLogger(name)`: return the registered logger, creating a
fresh one (no handlers, `propagate = True`, level `NOTSET = 0`) on first
use. -/
def getLogger (reg : Registry) (name : String) : Registry × LoggerState :=
  match regFind reg name with
  | some l => (reg, l)
  | none =>
    let l : LoggerState := { level := 0, propagate := true, handlers := [] }
    (reg ++ [(name, l)], l)

/-- `setup_logger(name, logfile)` (lines 49–64): fetch the named logger,
set level INFO and `propagate = False`, and only if it has no handlers
yet attach the rotating file handler (10 MiB, 5 backups, UTF-8) on
`logfile` and a stream handler. -/
def setup_logger (reg : Registry) (name logfile : String) : Registry × LoggerState :=
  let (reg1, l0) := getLogger reg name
  let l1 := { l0 with level := INFO_LEVEL, propagate := false }
  let l2 :=
    if l1.handlers.isEmpty then
      { l1 with handlers :=
          [.rotatingFile logfile (10 * 1024 * 1024) 5 "utf-8", .stream] }
    else l1
  (regSet reg1 name l2, l2)

/-! ## The pass lock, pending flag and pending paths
(`SyncTask.sync` lines 193–260, `Handler.on_any_event` lines 266–274)

The task's synchronisation state is the pass lock, the pending flag,
the pending-paths set and the two per-pass counters.  `sync()` is split
at its two control points: the entry (drain the paths, try the
non-blocking acquire) and the `finally` block (release, then re-enter
once if the flag is set).  A run of the engine is driven by a schedule
giving the event paths that arrive during each successive pass. -/

/-- The fields of a `SyncTask` that the locking protocol touches. -/
structure TaskState where
  lock : Bool
  pending : Bool
  pendingPaths : List String
  copyCount : Nat
  deleteCount : Nat
  deriving DecidableEq, Repr

/-- Lines 195–204 of `sync()`: drain and clear the pending-paths set
(the drained list is what gets logged), then try the non-blocking
acquire.  Returns the new state, whether the lock was acquired, and the
drained list. -/
def syncHead (s : TaskState) : TaskState × Bool × List String :=
  let changed := s.pendingPaths
  let s1 := { s with pendingPaths := [] }
  if s1.lock then ({ s1 with pending := true }, false, changed)
  else ({ s1 with lock := true }, true, changed)

/-- Lines 256–260 of `sync()`: the `finally` block.  Release the lock;
if the pending flag is set, clear it and re-enter `sync()` (the Boolean
records whether re-entry happens). -/
def syncFinally (s : TaskState) : TaskState × Bool :=
  let s1 := { s with lock := false }
  if s1.pending then ({ s1 with pending := false }, true) else (s1, false)

/-- Lines 266–269: `on_any_event` during a running pass.  The handler
adds the path to the pending set and calls `task.sync()`, which (the
pass holding the lock) takes the busy path of `syncHead`. -/
def eventDuringPass (s : TaskState) (p : String) : TaskState :=
  (syncHead { s with pendingPaths := s.pendingPaths ++ [p] }).1

/-- Lines 206–253: the body of a pass.  Counters are reset at pass
start; the file work itself does not touch the locking state; `events`
are the paths whose events arrive while the pass runs. -/
def passBody (s : TaskState) (events : List String) : TaskState :=
  events.foldl eventDuringPass { s with copyCount := 0, deleteCount := 0 }

/-- One top-level `sync()` call together with its `finally`-triggered
re-entries, counting the passes executed.  `sched` lists the events
arriving during each successive pass; the structural fuel only bounds
the recursion and `syncRun` supplies enough that it never runs out. -/
def syncRunAux (fuel : Nat) (s : TaskState) (sched : List (List String)) :
    TaskState × Nat :=
  match fuel with
  | 0 => (s, 0)
  | fuel' + 1 =>
    match syncHead s with
    | (s1, false, _) => (s1, 0)
    | (s1, true, _) =>
      let s2 := passBody s1 (sched.headD [])
      match syncFinally s2 with
      | (s3, true) =>
        let r := syncRunAux fuel' s3 sched.tail
        (r.1, r.2 + 1)
      | (s3, false) => (s3, 1)

/-- A `sync()` call under event schedule `sched`: final state and the
number of passes executed before the task goes idle. -/
def syncRun (s : TaskState) (sched : List (List String)) : TaskState × Nat :=
  syncRunAux (sched.length + 2) s sched

/-! ## Theorems -/

/-- **C1** — Copy-plan condition: for a (s_base, t_base) pair, a regular
source file is marked for copying iff it is not excluded and either no
target file exists at its relative path, or the source mtime is strictly
greater than the target's and the two digests differ; in particular a
source file whose bytes are identical to the target file's is never
marked, whatever its mtime. -/
theorem copyPlan_marks_iff (hash : List Nat → List Nat) (exclude : List String)
    (srcFiles dstFiles : List (String × FileRec)) :
    (∀ rel f, (rel, f) ∈ copyPlan hash exclude srcFiles dstFiles ↔
      ((rel, f) ∈ srcFiles ∧ should_exclude exclude rel = false ∧
        (lookupFS dstFiles rel = none ∨
          ∃ d, lookupFS dstFiles rel = some d ∧ d.mtime < f.mtime ∧
            hash f.content ≠ hash d.content))) ∧
    (∀ rel f d, (rel, f) ∈ srcFiles → lookupFS dstFiles rel = some d →
      d.content = f.content →
      (rel, f) ∉ copyPlan hash exclude srcFiles dstFiles) := by
  have hiff : ∀ rel f, (rel, f) ∈ copyPlan hash exclude srcFiles dstFiles ↔
      ((rel, f) ∈ srcFiles ∧ should_exclude exclude rel = false ∧
        (lookupFS dstFiles rel = none ∨
          ∃ d, lookupFS dstFiles rel = some d ∧ d.mtime < f.mtime ∧
            hash f.content ≠ hash d.content)) := by
    intro rel f
    rw [copyPlan, List.mem_filter]
    cases hx : should_exclude exclude rel
    · cases hd : lookupFS dstFiles rel with
      | none => simp [hx, hd]
      | some d => simp [hx, hd, and_assoc]
    · simp [hx]
  refine ⟨hiff, ?_⟩
  intro rel f d hmem hld hceq hplan
  rcases (hiff rel f).1 hplan with ⟨-, -, hnone | ⟨d', hsome, -, hne⟩⟩
  · rw [hld] at hnone; cases hnone
  · rw [hld] at hsome
    cases hsome
    exact hne (congrArg hash hceq).symm

/-- Witness for C1 at concrete inputs: a new source file is marked; a
mtime-newer source file with the target's exact content is not. -/
theorem copyPlan_marks_iff_witness :
    ("a.txt", (⟨5, [1]⟩ : FileRec)) ∈ copyPlan id ["*.tmp"] [("a.txt", ⟨5, [1]⟩)] [] ∧
    ("b", (⟨9, [2]⟩ : FileRec)) ∉ copyPlan id [] [("b", ⟨9, [2]⟩)] [("b", ⟨1, [2]⟩)] :=
  ⟨((copyPlan_marks_iff id ["*.tmp"] [("a.txt", ⟨5, [1]⟩)] []).1 "a.txt" ⟨5, [1]⟩).2
      ⟨by decide, by decide, Or.inl rfl⟩,
   (copyPlan_marks_iff id [] [("b", ⟨9, [2]⟩)] [("b", ⟨1, [2]⟩)]).2 "b" ⟨9, [2]⟩ ⟨1, [2]⟩
      (by decide) (by decide) rfl⟩

/-- **C2** — Delete-plan condition: a target entry is marked for
deletion iff its relative POSIX path matches no exclude pattern and the
corresponding path does not exist under the source; an excluded target
entry is never marked. -/
theorem deletePlan_marks_iff (exclude : List String) (tgtEntries srcPaths : List String) :
    (∀ rel, rel ∈ deletePlan exclude tgtEntries srcPaths ↔
      (rel ∈ tgtEntries ∧ (∀ pat ∈ exclude, fnmatch rel pat = false) ∧
        rel ∉ srcPaths)) ∧
    (∀ rel pat, pat ∈ exclude → fnmatch rel pat = true →
      rel ∉ deletePlan exclude tgtEntries srcPaths) := by
  have hiff : ∀ rel, rel ∈ deletePlan exclude tgtEntries srcPaths ↔
      (rel ∈ tgtEntries ∧ (∀ pat ∈ exclude, fnmatch rel pat = false) ∧
        rel ∉ srcPaths) := by
    intro rel
    rw [deletePlan, List.mem_filter]
    cases hx : exclude.any (fun pat => fnmatch rel pat)
    · have hall : ∀ pat ∈ exclude, fnmatch rel pat = false := by
        intro pat hp
        simpa using List.any_eq_false.mp hx pat hp
      simp only [hx, Bool.false_eq_true, if_false]
      constructor
      · rintro ⟨hm, hc⟩
        refine ⟨hm, hall, ?_⟩
        simpa [List.elem_iff] using hc
      · rintro ⟨hm, -, hns⟩
        refine ⟨hm, ?_⟩
        simpa [List.elem_iff] using hns
    · obtain ⟨pat, hpat, hm⟩ := List.any_eq_true.mp hx
      simp only [hx, if_true]
      constructor
      · rintro ⟨-, h⟩; cases h
      · rintro ⟨-, hall, -⟩
        rw [hall pat hpat] at hm
        cases hm
  refine ⟨hiff, ?_⟩
  intro rel pat hpat hm hplan
  rcases (hiff rel).1 hplan with ⟨-, hall, -⟩
  rw [hall pat hpat] at hm
  cases hm

/-- Witness for C2 at concrete inputs: an entry missing from the source
is marked; an excluded entry is not, though missing from the source. -/
theorem deletePlan_marks_iff_witness :
    "old.txt" ∈ deletePlan ["*.tmp"] ["old.txt", "x.tmp"] ["kept.txt"] ∧
    "x.tmp" ∉ deletePlan ["*.tmp"] ["old.txt", "x.tmp"] ["kept.txt"] :=
  ⟨((deletePlan_marks_iff ["*.tmp"] ["old.txt", "x.tmp"] ["kept.txt"]).1 "old.txt").2
      ⟨by decide, by decide, by decide⟩,
   (deletePlan_marks_iff ["*.tmp"] ["old.txt", "x.tmp"] ["kept.txt"]).2 "x.tmp" "*.tmp"
      (by decide) (by decide)⟩

/-- **C4** (counterexample) — three sources with two targets are not
rejected at load time: validation succeeds (sources existing, targets
writable) and the pairs silently fan in to the first target. -/
theorem pairs_mismatch_not_rejected :
    validate (fun _ => true) (fun _ => true) ["a", "b", "c"] ["x", "y"] = .ok () ∧
    pairsOf ["a", "b", "c"] ["x", "y"] = [("a", "x"), ("b", "x"), ("c", "x")] :=
  ⟨rfl, rfl⟩

/-- **C4** (amended) — pair derivation: equal-length lists zip, a single
source fans out to every target, and every other shape — any
multi-source list whatever the target count, three sources with two
targets included — fans in to the first target; validation (with
sources existing and targets writable) rejects exactly the configs with
no source or no target, never a length mismatch. -/
theorem pairsOf_cases (sources targets : List String) :
    (sources.length = targets.length → pairsOf sources targets = sources.zip targets) ∧
    (sources.length ≠ targets.length → sources.length = 1 →
      pairsOf sources targets = targets.map fun t => (sources.headD "", t)) ∧
    (sources.length ≠ targets.length → sources.length ≠ 1 →
      pairsOf sources targets = sources.map fun s => (s, targets.headD "")) ∧
    (validate (fun _ => true) (fun _ => true) sources targets = .ok () ↔
      sources ≠ [] ∧ targets ≠ []) := by
  refine ⟨fun h => by rw [pairsOf, if_pos h], fun h h1 => by rw [pairsOf, if_neg h, if_pos h1],
    fun h h1 => by rw [pairsOf, if_neg h, if_neg h1], ?_⟩
  rw [validate]
  cases hse : sources.isEmpty || targets.isEmpty
  · rw [Bool.or_eq_false_iff] at hse
    have hfs : sources.find? (fun s => !(fun _ => true) s) = none :=
      List.find?_eq_none.mpr (by intro x hx; simp)
    have hft : targets.find? (fun t => !(fun _ => true) t) = none :=
      List.find?_eq_none.mpr (by intro x hx; simp)
    simp only [Bool.false_eq_true, if_false, hfs, hft]
    simp [← List.isEmpty_iff, hse.1, hse.2]
  · simp only [hse, if_true]
    constructor
    · intro h; cases h
    · rintro ⟨hs, ht⟩
      rw [Bool.or_eq_true_iff] at hse
      rcases hse with hse | hse <;> rw [List.isEmpty_iff] at hse <;> tauto

/-- Witness for C4's amended claim: one source fanned out over two
targets. -/
theorem pairsOf_cases_witness :
    pairsOf ["s"] ["t1", "t2"] = [("s", "t1"), ("s", "t2")] := by
  have h := (pairsOf_cases ["s"] ["t1", "t2"]).2.1 (by decide) (by decide)
  simpa using h

/-- Matching the cleanup glob `*.sync_tmp*` needs a `.` in the name. -/
theorem no_dot_no_sync_tmp_match (s : List Char) (h : '.' ∉ s) :
    globMatch "*.sync_tmp*".toList s = false := by
  show (s.tails.any fun t => globMatch ('.' :: "sync_tmp*".toList) t) = false
  rw [List.any_eq_false]
  intro t ht
  have hsub := ((List.mem_tails _ _).mp ht).subset
  cases t with
  | nil => decide
  | cons d cs =>
    have hd : ('.' : Char) ≠ d := by
      intro e
      exact h (hsub (by rw [e]; exact List.mem_cons_self _ _))
    show ¬((('.' == d) && globMatch "sync_tmp*".toList cs) = true)
    simp [hd]

/-- **C5** — the temp file of `_atomic_copy` does reside in the
destination's parent directory, but its `NamedTemporaryFile` name
(prefix `tmp`, then random characters over lowercase letters, digits
and underscore) never matches the glob `*.sync_tmp*`, so
`cleanup_tmp_files` does not remove what an interrupted copy left
behind. -/
theorem atomicCopy_tmp_escapes_cleanup (dst : List String) (rand : String)
    (h : ∀ c ∈ rand.toList, c ∈ tempfileAlphabet) :
    atomicCopyTmpPath dst rand = dst.dropLast ++ [tempFileName rand] ∧
    cleanupRemoves (tempFileName rand) = false := by
  refine ⟨rfl, ?_⟩
  rw [cleanupRemoves]
  apply no_dot_no_sync_tmp_match
  intro hmem
  rw [tempFileName] at hmem
  have hexp : ("tmp" ++ rand).toList = 't' :: 'm' :: 'p' :: rand.toList := rfl
  rw [hexp] at hmem
  have hr : ('.' : Char) ∈ rand.toList := by simpa using hmem
  exact absurd (h _ hr) (by decide)

/-- Witness for C5: an interrupted copy of `t/a.txt` leaves
`t/tmpab12cd34`, which the cleanup glob does not match. -/
theorem atomicCopy_tmp_escapes_cleanup_witness :
    atomicCopyTmpPath ["t", "a.txt"] "ab12cd34" = ["t", "tmpab12cd34"] ∧
    cleanupRemoves "tmpab12cd34" = false := by
  have h := atomicCopy_tmp_escapes_cleanup ["t", "a.txt"] "ab12cd34" (by decide)
  exact ⟨by rw [h.1]; decide, h.2⟩

/-- **C6** (counterexample) — a worker that exits with code 0 is
respawned anyway: the supervisor loop reaches the next spawn without
inspecting the exit code. -/
theorem supervise_restarts_on_zero_exit :
    (superviseStep 0).respawned = true := rfl

/-- **C6** (amended) — after any child exit the supervisor logs the
event, sleeps `RESTART_DELAY` = 5 seconds, and unconditionally spawns a
new worker, whatever the exit code. -/
theorem superviseStep_unconditional (code : Int) :
    superviseStep code =
      { loggedExit := true, sleptSeconds := RESTART_DELAY, respawned := true } ∧
    RESTART_DELAY = 5 :=
  ⟨rfl, rfl⟩

/-- **C7** — `retry(times=3)` invokes the wrapped function until its
first success and returns that result, making at most 3 invocations in
total; if all 3 invocations raise, the last exception is propagated. -/
theorem retry3_semantics {E A : Type} (f : Nat → Except E A) :
    (∀ k a, k < 3 → f k = .ok a → (∀ i, i < k → ∃ e, f i = .error e) →
      retryRun f 3 = (some (.ok a), k + 1)) ∧
    (∀ e0 e1 e2, f 0 = .error e0 → f 1 = .error e1 → f 2 = .error e2 →
      retryRun f 3 = (some (.error e2), 3)) := by
  constructor
  · intro k a hk hfk hprev
    interval_cases k
    · simp [retryRun, retryGo, hfk]
    · obtain ⟨e0, h0⟩ := hprev 0 (by omega)
      simp [retryRun, retryGo, h0, hfk]
    · obtain ⟨e0, h0⟩ := hprev 0 (by omega)
      obtain ⟨e1, h1⟩ := hprev 1 (by omega)
      simp [retryRun, retryGo, h0, h1, hfk]
  · intro e0 e1 e2 h0 h1 h2
    simp [retryRun, retryGo, h0, h1, h2]

/-- Witness for C7: a call that fails once then succeeds returns the
success after exactly 2 invocations. -/
theorem retry3_semantics_witness :
    retryRun (fun i => if i = 0 then (.error 7 : Except Nat Nat) else .ok 42) 3 =
      (some (.ok 42), 2) :=
  (retry3_semantics (fun i => if i = 0 then (.error 7 : Except Nat Nat) else .ok 42)).1
    1 42 (by omega) rfl
    (by intro i hi; interval_cases i; exact ⟨7, rfl⟩)

/-- `syncHead` when the pass lock is held: paths drained, acquire
fails, pending flag set. -/
theorem syncHead_busy (s : TaskState) (h : s.lock = true) :
    syncHead s = ({ s with pendingPaths := [], pending := true }, false, s.pendingPaths) := by
  cases s
  subst h
  rfl

/-- `syncHead` when the pass lock is free: paths drained, acquire
succeeds. -/
theorem syncHead_free (s : TaskState) (h : s.lock = false) :
    syncHead s = ({ s with pendingPaths := [], lock := true }, true, s.pendingPaths) := by
  cases s
  subst h
  rfl

/-- The `finally` block when the pending flag is set: lock released,
flag cleared, `sync()` re-entered. -/
theorem syncFinally_pending (s : TaskState) (h : s.pending = true) :
    syncFinally s = ({ s with lock := false, pending := false }, true) := by
  cases s
  subst h
  rfl

/-- The `finally` block when the pending flag is clear: lock released,
no re-entry. -/
theorem syncFinally_clear (s : TaskState) (h : s.pending = false) :
    syncFinally s = ({ s with lock := false }, false) := by
  cases s
  subst h
  rfl

/-- An event delivered while the lock is held clears the drained path
set and raises the pending flag, leaving the lock alone. -/
theorem eventDuringPass_locked (s : TaskState) (p : String) (h : s.lock = true) :
    eventDuringPass s p = { s with pendingPaths := [], pending := true } := by
  cases s
  subst h
  rfl

/-- Folding any event burst over a locked state keeps the lock, and a
nonempty burst (or an already-set flag) leaves the pending flag set. -/
theorem foldl_events_locked (events : List String) :
    ∀ s : TaskState, s.lock = true →
      (events.foldl eventDuringPass s).lock = true ∧
      ((events ≠ [] ∨ s.pending = true) →
        (events.foldl eventDuringPass s).pending = true) := by
  induction events with
  | nil =>
    intro s h
    refine ⟨h, fun hp => ?_⟩
    rcases hp with hp | hp
    · exact absurd rfl hp
    · exact hp
  | cons e rest ih =>
    intro s h
    rw [List.foldl_cons, eventDuringPass_locked s e h]
    obtain ⟨hl, hp⟩ := ih { s with pendingPaths := [], pending := true } h
    exact ⟨hl, fun _ => hp (Or.inr rfl)⟩

/-- A pass body keeps the lock held, and as soon as one event arrives
during the pass the pending flag ends up set. -/
theorem passBody_locked (s : TaskState) (evs : List String) (h : s.lock = true) :
    (passBody s evs).lock = true ∧ (evs ≠ [] → (passBody s evs).pending = true) := by
  rw [passBody]
  obtain ⟨hl, hp⟩ := foldl_events_locked evs { s with copyCount := 0, deleteCount := 0 } h
  exact ⟨hl, fun hne => hp (Or.inl hne)⟩

/-- One engine step when the call finds the lock held: the busy return
of `sync()`, no pass run. -/
theorem syncRunAux_step_busy (fuel : Nat) (s : TaskState) (sched : List (List String))
    (h : s.lock = true) :
    syncRunAux (fuel + 1) s sched = ({ s with pendingPaths := [], pending := true }, 0) := by
  simp only [syncRunAux, syncHead_busy s h]

/-- One engine step when the call acquires the lock: a pass runs and
the `finally` outcome decides whether the engine re-enters. -/
theorem syncRunAux_step_free (fuel : Nat) (s : TaskState) (sched : List (List String))
    (h : s.lock = false) :
    syncRunAux (fuel + 1) s sched =
      (match syncFinally (passBody { s with pendingPaths := [], lock := true }
          (sched.headD [])) with
        | (s3, true) =>
          ((syncRunAux fuel s3 sched.tail).1, (syncRunAux fuel s3 sched.tail).2 + 1)
        | (s3, false) => (s3, 1)) := by
  simp only [syncRunAux, syncHead_free s h]

/-- A `sync()` call that finds the lock free executes at least one
pass. -/
theorem syncRunAux_pos (fuel : Nat) (s : TaskState) (sched : List (List String))
    (h : s.lock = false) :
    1 ≤ (syncRunAux (fuel + 1) s sched).2 := by
  rw [syncRunAux_step_free fuel s sched h]
  rcases hsf : syncFinally (passBody { s with pendingPaths := [], lock := true }
    (sched.headD [])) with ⟨s3, b⟩
  cases b
  · simp
  · simp

/-- **C3** — No lost wake-up: a `sync()` call made while the pass lock
is held fails the non-blocking acquire, sets the pending flag and
returns at once, running no pass; the `finally` block of a pass clears
a set pending flag and re-enters `sync()` exactly once (a clear flag
causes no re-entry); consequently a run whose first pass sees at least
one event executes at least one follow-up pass before going idle. -/
theorem sync_no_lost_wakeup (s : TaskState) (sched : List (List String))
    (evs : List String) (rest : List (List String)) :
    (s.lock = true → syncRun s sched =
      ({ s with pendingPaths := [], pending := true }, 0)) ∧
    (s.pending = true → syncFinally s = ({ s with lock := false, pending := false }, true)) ∧
    (s.pending = false → syncFinally s = ({ s with lock := false }, false)) ∧
    (s.lock = false → evs ≠ [] → 2 ≤ (syncRun s (evs :: rest)).2) := by
  refine ⟨?_, syncFinally_pending s, syncFinally_clear s, ?_⟩
  · intro h
    rw [syncRun]
    exact syncRunAux_step_busy (sched.length + 1) s sched h
  · intro h hne
    rw [syncRun]
    have hstep : syncRunAux ((evs :: rest).length + 2) s (evs :: rest) =
        syncRunAux ((rest.length + 2) + 1) s (evs :: rest) := rfl
    rw [hstep, syncRunAux_step_free (rest.length + 2) s (evs :: rest) h]
    obtain ⟨hl, hp⟩ := passBody_locked { s with pendingPaths := [], lock := true } evs rfl
    have hhd : (evs :: rest).headD [] = evs := rfl
    rw [hhd, syncFinally_pending _ (hp hne)]
    have htl : (evs :: rest).tail = rest := rfl
    rw [htl]
    have h1 : 1 ≤ (syncRunAux (rest.length + 2)
        ({ passBody { s with pendingPaths := [], lock := true } evs with
          lock := false, pending := false }) rest).2 :=
      syncRunAux_pos (rest.length + 1)
        ({ passBody { s with pendingPaths := [], lock := true } evs with
          lock := false, pending := false }) rest rfl
    show 2 ≤ (syncRunAux (rest.length + 2)
        ({ passBody { s with pendingPaths := [], lock := true } evs with
          lock := false, pending := false }) rest).2 + 1
    omega

/-- Witness for C3: from the idle state, one event during the first
pass forces a second pass. -/
theorem sync_no_lost_wakeup_witness :
    2 ≤ (syncRun ⟨false, false, [], 0, 0⟩ [["a"]]).2 :=
  (sync_no_lost_wakeup ⟨false, false, [], 0, 0⟩ [["a"]] ["a"] []).2.2.2 rfl (by simp)

/-- **C9** — `sync()` drains and clears the pending-paths set before
attempting the pass lock (the drained list is what gets logged), so
even a declined call consumes the accumulated changed paths, and on the
declined path the copy and delete counters are untouched. -/
theorem syncHead_drains_before_lock (s : TaskState) :
    (syncHead s).2.2 = s.pendingPaths ∧
    (syncHead s).1.pendingPaths = [] ∧
    (syncHead s).1.copyCount = s.copyCount ∧
    (syncHead s).1.deleteCount = s.deleteCount ∧
    (s.lock = true → syncHead s =
      ({ s with pendingPaths := [], pending := true }, false, s.pendingPaths)) := by
  cases s with
  | mk lk pd pp cc dc => cases lk <;> simp [syncHead]

/-- Witness for C9: a busy-lock call with two queued paths and nonzero
counters returns them drained and the counters intact. -/
theorem syncHead_drains_before_lock_witness :
    syncHead ⟨true, false, ["p", "q"], 3, 4⟩ =
      (⟨true, true, [], 3, 4⟩, false, ["p", "q"]) :=
  (syncHead_drains_before_lock ⟨true, false, ["p", "q"], 3, 4⟩).2.2.2.2 rfl

/-- **C8** (counterexample) — a record is not formatted as
`timestamp | LEVEL | message` and nothing else: at level ERROR with
message `x` the formatter appends a cat tail after the message. -/
theorem catFormat_ne_spec_format :
    catFormat "2025-01-01 00:00:00" "ERROR" "x" (random_tail 0) ≠
      specLogFormat "2025-01-01 00:00:00" "ERROR" "x" := by decide

/-- **C8** (amended) — every record keeps the spec's three-field
skeleton, but with the level name center-padded to width 5 and a random
cat tail from `CAT_TAILS` appended after the message; the rotating file
handler is registered with 10 MiB per file, 5 backups and UTF-8. -/
theorem catFormat_shape (ts levelname msg name logfile : String) (i : Nat) :
    catFormat ts levelname msg (random_tail i) =
      specLogFormat ts (centerPad 5 levelname) (msg ++ " " ++ random_tail i) ∧
    random_tail i ∈ CAT_TAILS ∧
    (setup_logger [] name logfile).2.handlers =
      [.rotatingFile logfile (10 * 1024 * 1024) 5 "utf-8", .stream] := by
  refine ⟨?_, ?_, rfl⟩
  · rw [catFormat, specLogFormat]
    simp [String.append_assoc]
  · have h4 : i % 4 = 0 ∨ i % 4 = 1 ∨ i % 4 = 2 ∨ i % 4 = 3 := by omega
    rcases h4 with h | h | h | h <;> rw [random_tail, h] <;> decide

/-- First registered logger under a fresh name appended at the back. -/
theorem regFind_append_single (reg : Registry) (name : String) (l : LoggerState)
    (h : regFind reg name = none) :
    regFind (reg ++ [(name, l)]) name = some l := by
  induction reg with
  | nil => simp [regFind]
  | cons hd tl ih =>
    obtain ⟨n, v⟩ := hd
    by_cases hn : n = name
    · rw [regFind, if_pos hn] at h
      cases h
    · rw [regFind, if_neg hn] at h
      rw [List.cons_append, regFind, if_neg hn]
      exact ih h

/-- Writing back the value already registered is a no-op. -/
theorem regSet_self (reg : Registry) (name : String) (v : LoggerState)
    (h : regFind reg name = some v) : regSet reg name v = reg := by
  induction reg with
  | nil => rfl
  | cons hd tl ih =>
    obtain ⟨n, w⟩ := hd
    by_cases hn : n = name
    · rw [regFind, if_pos hn] at h
      obtain rfl : w = v := by injection h
      rw [regSet, if_pos hn]
    · rw [regFind, if_neg hn] at h
      rw [regSet, if_neg hn, ih h]

/-- After overwriting a registered name, lookup sees the new value. -/
theorem regFind_regSet (reg : Registry) (name : String) (v w : LoggerState)
    (h : regFind reg name = some v) : regFind (regSet reg name w) name = some w := by
  induction reg with
  | nil => cases h
  | cons hd tl ih =>
    obtain ⟨n, u⟩ := hd
    by_cases hn : n = name
    · rw [regSet, if_pos hn, regFind, if_pos hn]
    · rw [regFind, if_neg hn] at h
      rw [regSet, if_neg hn, regFind, if_neg hn]
      exact ih h

/-- A `setup_logger` call that finds the named logger already carrying
handlers (and the level and flag it would set) changes nothing: the
`logfile` argument is ignored. -/
theorem setup_logger_existing (reg : Registry) (name lf : String) (l : LoggerState)
    (hfind : regFind reg name = some l) (hlvl : l.level = INFO_LEVEL)
    (hprop : l.propagate = false) (hne : l.handlers.isEmpty = false) :
    setup_logger reg name lf = (regSet reg name l, l) := by
  obtain ⟨lv, pr, hs⟩ := l
  simp only at hlvl hprop hne
  subst hlvl
  subst hprop
  simp [setup_logger, getLogger, hfind, hne]

/-- **C10** — `setup_logger` attaches handlers only on the first call
for a given name: after a first call registering `name` with `lf1`, a
second call with any `lf2` returns the very same logger and leaves the
registry unchanged, and the handlers still name `lf1`. -/
theorem setup_logger_idempotent (reg : Registry) (name lf1 lf2 : String)
    (h : regFind reg name = none) :
    setup_logger (setup_logger reg name lf1).1 name lf2 =
      ((setup_logger reg name lf1).1, (setup_logger reg name lf1).2) ∧
    (setup_logger reg name lf1).2.handlers =
      [.rotatingFile lf1 (10 * 1024 * 1024) 5 "utf-8", .stream] := by
  have h1 : setup_logger reg name lf1 =
      (regSet (reg ++ [(name, { level := 0, propagate := true, handlers := [] })]) name
        { level := INFO_LEVEL, propagate := false,
          handlers := [.rotatingFile lf1 (10 * 1024 * 1024) 5 "utf-8", .stream] },
        { level := INFO_LEVEL, propagate := false,
          handlers := [.rotatingFile lf1 (10 * 1024 * 1024) 5 "utf-8", .stream] }) := by
    simp [setup_logger, getLogger, h]
  have hfind1 := regFind_regSet (reg ++ [(name, { level := 0, propagate := true, handlers := [] })])
    name { level := 0, propagate := true, handlers := [] }
    ({ level := INFO_LEVEL, propagate := false,
       handlers := [.rotatingFile lf1 (10 * 1024 * 1024) 5 "utf-8", .stream] } : LoggerState)
    (regFind_append_single reg name { level := 0, propagate := true, handlers := [] } h)
  refine ⟨?_, by rw [h1]⟩
  rw [h1]
  rw [setup_logger_existing _ name lf2 _ hfind1 rfl rfl rfl]
  rw [regSet_self _ _ _ hfind1]

/-- Witness for C10: registering `t` at `a.log` then calling again with
`b.log` changes nothing and the handlers keep `a.log`. -/
theorem setup_logger_idempotent_witness :
    setup_logger (setup_logger [] "t" "a.log").1 "t" "b.log" =
      ((setup_logger [] "t" "a.log").1, (setup_logger [] "t" "a.log").2) ∧
    (setup_logger [] "t" "a.log").2.handlers =
      [.rotatingFile "a.log" (10 * 1024 * 1024) 5 "utf-8", .stream] :=
  setup_logger_idempotent [] "t" "a.log" "b.log" rfl

end SyncMulti
